import Mathlib

/-!
Verification of the SpeechSwitch output module for Speech Dispatcher
(`src/modules/speechsw.c`), as a shallow embedding in Lean 4.

The module bridges Speech Dispatcher (the host) to SpeechSwitch engine
providers.  We embed the decision logic of the C functions as pure Lean
functions over explicit state, with the calls the code makes into the host
playback queue and the provider library recorded as event lists.
-/

namespace Speechsw

/-! ## Streaming bridge: `audio_callback` (speechsw.c lines 114-149)

The callback receives a chunk of samples, an engine-originated `cancel`
flag, and observes the shared flag `sw_cancel` and the host queue's
pending-stop state.  We record the calls it makes into the host queue as a
list of `QueueEvent`s, the boolean it returns to the provider, and the
value of `sw_cancel` after the invocation. -/

/-- Calls `audio_callback` makes into the host playback queue. -/
inductive QueueEvent where
  | queueStop : QueueEvent
  | beforePlay : QueueEvent
  | addEnd : QueueEvent
  | addChunk : Nat → QueueEvent
deriving DecidableEq, Repr

/-- The inputs `audio_callback` reads on one invocation: the
engine-originated `cancel` argument, the shared `sw_cancel` flag, the
result of `module_speak_queue_stop_requested()`, the sample count
`num_samples`, and whether `module_speak_queue_add_audio` accepts the
chunk. -/
structure CallbackInput where
  cancel : Bool
  swCancel : Bool
  stopRequested : Bool
  numSamples : Nat
  addOk : Bool
deriving DecidableEq, Repr

/-- The observable outcome of one `audio_callback` invocation: the host
queue calls made, the boolean returned to the provider (`true` = cancel
synthesis), and the value of `sw_cancel` afterwards. -/
structure CallbackResult where
  events : List QueueEvent
  retCancel : Bool
  swCancelAfter : Bool
deriving DecidableEq, Repr

/-- Shallow embedding of `audio_callback` (speechsw.c lines 114-149).
Branches in source order: (1) `cancel || sw_cancel` calls
`module_speak_queue_stop()` and returns true; (2)
`module_speak_queue_stop_requested()` sets `sw_cancel = true` and returns
true; (3) `num_samples == 0` calls `module_speak_queue_before_play()` then
`module_speak_queue_add_end()` and returns false; (4) otherwise it calls
`module_speak_queue_before_play()` and `module_speak_queue_add_audio`,
returning true if the add fails and the re-read `sw_cancel` otherwise. -/
def audio_callback (i : CallbackInput) : CallbackResult :=
  if i.cancel || i.swCancel then
    ⟨[QueueEvent.queueStop], true, i.swCancel⟩
  else if i.stopRequested then
    ⟨[], true, true⟩
  else if i.numSamples = 0 then
    ⟨[QueueEvent.beforePlay, QueueEvent.addEnd], false, i.swCancel⟩
  else if i.addOk then
    ⟨[QueueEvent.beforePlay, QueueEvent.addChunk i.numSamples], i.swCancel, i.swCancel⟩
  else
    ⟨[QueueEvent.beforePlay, QueueEvent.addChunk i.numSamples], true, i.swCancel⟩

/-! ## `module_init` (speechsw.c lines 449-468)

`module_init` checks `sw_num_voices`; when it is zero it returns
`FATAL_ERROR` immediately, before `module_speak_queue_init` is called.
We record the returned status and whether `module_speak_queue_init`
was invoked. -/

/-- `FATAL_ERROR` from the `TSpeechswSuccess` enum (speechsw.c line 61). -/
def FATAL_ERROR : Int := -1

/-- `OK` from the `TSpeechswSuccess` enum (speechsw.c line 62). -/
def OK : Int := 0

/-- Shallow embedding of `module_init` (speechsw.c lines 449-468).
Input: the voice count `sw_num_voices` and the value
`module_speak_queue_init` would return.  Output: the returned status and
whether `module_speak_queue_init` was called. -/
def module_init (sw_num_voices : Nat) (queueInitRet : Int) : Int × Bool :=
  if sw_num_voices = 0 then (FATAL_ERROR, false)
  else if queueInitRet ≠ OK then (queueInitRet, true)
  else (OK, true)

/-! ## `speak` text copy (speechsw.c lines 475-482)

`speak` allocates `bytes + 1` chars only when `bytes != 0`, leaving
`text = NULL` otherwise, then unconditionally executes
`memcpy(text, data, bytes)` and `text[bytes] = '\0'`.  We model the
allocation as `Option Nat` (`none` = NULL, `some n` = a buffer of `n`
chars) and record whether the terminating store `text[bytes] = '\0'`
dereferences a null pointer. -/

/-- Shallow embedding of the copy-and-terminate step of `speak`
(speechsw.c lines 475-482).  First component: the allocation backing
`text` (`none` = NULL pointer).  Second component: whether the store
`text[bytes] = '\0'` writes through a null pointer. -/
def speak_copy (bytes : Nat) : Option Nat × Bool :=
  let text : Option Nat := if bytes ≠ 0 then some (bytes + 1) else none
  (text, text.isNone)

/-! ## `set_synthesis_voice` voice guard (speechsw.c lines 305-309)

After resolving the composite name to `engine_name` and `voice_name`
(and making `engine_name` the running engine, so `sw_engine_name`
equals `engine_name` at line 305), the code decides whether to call
`swSetVoice` with the guard
`sw_voice_name == NULL || strcmp(voice_name, sw_engine_name)`. -/

/-- Shallow embedding of the guard at speechsw.c line 305: `swSetVoice`
is invoked when `sw_voice_name` is NULL or the resolved `voice_name`
differs from `sw_engine_name` (note: the code compares against the
engine name, not the stored voice name). -/
def swSetVoice_invoked (sw_voice_name : Option String) (sw_engine_name : String)
    (voice_name : String) : Bool :=
  sw_voice_name.isNone || voice_name != sw_engine_name

/-- The guard as the spec words it: `swSetVoice` is invoked when no voice
id is currently selected or the resolved voice id differs from the
currently selected voice id. -/
def swSetVoice_invoked_spec (sw_voice_name : Option String) (voice_name : String) : Bool :=
  sw_voice_name.isNone || sw_voice_name != some voice_name

/-! ## `set_rate` translation (speechsw.c lines 151-171)

`set_rate` translates the host rate in `[-100, 100]` to the provider speed
multiplier: `speed = 1.0f + rate/20.0f` when `rate > 0`,
`speed = 1.0f / (1.0f - rate/20.0f)` when `rate < 0`, and `1.0` at
`rate = 0`.  We embed the arithmetic over `ℚ`. -/

/-- Shallow embedding of the `speed` computation in `set_rate`
(speechsw.c lines 158-165). -/
def speed (rate : ℤ) : ℚ :=
  if 0 < rate then 1 + (rate : ℚ) / 20
  else if rate < 0 then 1 / (1 - (rate : ℚ) / 20)
  else 1

/-! ## Engine session lifecycle (speechsw.c lines 99-110, 250-271, 299-304)

The session state is the engine handle `sw_engine` together with its name
`sw_engine_name`; `sw_engine == NULL` iff no engine is live.  We model the
state as `Option String` (the name of the live engine, `none` = NULL) and
record the provider-library calls that create or destroy handles as
`EngineEvent`s, so the number of concurrently live handles along a call
trace can be counted. -/

/-- Provider-library calls that create or destroy engine handles:
a successful `swStart`, a failed `swStart`, and `swStop`. -/
inductive EngineEvent where
  | startOk : String → EngineEvent
  | startFail : String → EngineEvent
  | stopEv : EngineEvent
deriving DecidableEq, Repr

/-- Shallow embedding of `stop_engine` (speechsw.c lines 99-110): if an
engine is live, `swStop` it and clear the state. -/
def stop_engine : Option String → Option String × List EngineEvent
  | none => (none, [])
  | some _ => (none, [EngineEvent.stopEv])

/-- One `swStart` attempt: `starts` says which engine names start
successfully (`swStart` returns NULL on failure). -/
def swStart_model (starts : String → Bool) (name : String) :
    Option String × List EngineEvent :=
  if starts name then (some name, [EngineEvent.startOk name])
  else (none, [EngineEvent.startFail name])

/-- Shallow embedding of `start_engine` (speechsw.c lines 250-271): if an
engine with the same name is already live, return; otherwise stop any live
engine first, then attempt `swStart`. -/
def start_engine (starts : String → Bool) (st : Option String) (name : String) :
    Option String × List EngineEvent :=
  match st with
  | some cur =>
      if name = cur then (some cur, [])
      else
        let stp := stop_engine (some cur)
        let str := swStart_model starts name
        (str.1, stp.2 ++ str.2)
  | none => swStart_model starts name

/-- Shallow embedding of the engine-switching step of
`set_synthesis_voice` (speechsw.c lines 299-304): stop the live engine if
its name differs from the target, then start the target if no engine is
live. -/
def switch_engine (starts : String → Bool) (st : Option String) (engine_name : String) :
    Option String × List EngineEvent :=
  let s1 : Option String × List EngineEvent :=
    match st with
    | some cur => if engine_name = cur then (some cur, []) else stop_engine (some cur)
    | none => (none, [])
  match s1.1 with
  | none =>
      let s2 := start_engine starts none engine_name
      (s2.1, s1.2 ++ s2.2)
  | some cur => (some cur, s1.2)

/-- Number of live engine handles represented by a session state. -/
def live : Option String → Nat
  | none => 0
  | some _ => 1

/-- Effect of one provider-library call on the number of live handles. -/
def applyEv : Nat → EngineEvent → Nat
  | n, EngineEvent.startOk _ => n + 1
  | n, EngineEvent.startFail _ => n
  | n, EngineEvent.stopEv => n - 1

/-- Number of live handles after a trace of provider-library calls. -/
def applyEvs (n : Nat) (evs : List EngineEvent) : Nat :=
  evs.foldl applyEv n

/-! ## Default-engine fallback (speechsw.c lines 342-359, 557-563)

`set_default_engine` is called from `module_speak` only when
`sw_engine == NULL`.  It returns at once if no engines were discovered;
otherwise it tries `start_engine("espeak")`, and on failure tries each
name of `sw_engines` in order, stopping at the first success.  We record
the resulting engine state and the ordered list of start attempts. -/

/-- The loop of `set_default_engine` (speechsw.c lines 352-357): try each
engine name in order from the Idle state, stopping at the first
successful start.  Returns the resulting state and the attempted names. -/
def try_engines (starts : String → Bool) : List String → Option String × List String
  | [] => (none, [])
  | n :: rest =>
      if starts n then (some n, [n])
      else
        let r := try_engines starts rest
        (r.1, n :: r.2)

/-- Shallow embedding of `set_default_engine` (speechsw.c lines 342-359),
called with `sw_engine == NULL`.  Returns the resulting engine state and
the ordered list of attempted engine starts. -/
def set_default_engine (starts : String → Bool) (engines : List String) :
    Option String × List String :=
  if engines.isEmpty then (none, [])
  else if starts "espeak" then (some "espeak", ["espeak"])
  else
    let r := try_engines starts engines
    (r.1, "espeak" :: r.2)

/-- Shallow embedding of the fallback fragment of `module_speak`
(speechsw.c lines 557-563), reached with `sw_engine == NULL`: run
`set_default_engine`; if no engine is live afterwards, return `FALSE`
(0) without launching the speak task; otherwise proceed (returning
`bytes`) and launch the task.  Components: resulting engine state,
returned value, whether the speak task was launched. -/
def module_speak_fallback (starts : String → Bool) (engines : List String)
    (bytes : Nat) : Option String × Int × Bool :=
  match set_default_engine starts engines with
  | (none, _) => (none, 0, false)
  | (some e, _) => (some e, (bytes : Int), true)

/-! ## Voice catalog construction (speechsw.c lines 364-421, 288-298)

`find_all_synthesis_voices` builds `sw_voice_list`: for every voice id a
started engine reports, it splits the id at the last comma (`strrchr`),
names the descriptor `"<engineName> <voiceName>"` and takes the language
from the text after that comma.  `set_synthesis_voice` later splits the
descriptor name at the first space (`strchr`).  C strings are embedded as
`List Char`. -/

/-- `strchr`: split a string at the first occurrence of `c`, returning
the text before and after it; `none` when `c` does not occur (the C call
returns NULL). -/
def strchrSplit (c : Char) : List Char → Option (List Char × List Char)
  | [] => none
  | x :: xs =>
      if x = c then some ([], xs)
      else
        match strchrSplit c xs with
        | none => none
        | some (pre, post) => some (x :: pre, post)

/-- `strrchr`: split a string at the last occurrence of `c`, returning
the text before and after it; `none` when `c` does not occur. -/
def strrchrSplit (c : Char) : List Char → Option (List Char × List Char)
  | [] => none
  | x :: xs =>
      match strrchrSplit c xs with
      | some (pre, post) => some (x :: pre, post)
      | none => if x = c then some ([], xs) else none

/-- Shallow embedding of `capitalizeLocale` (speechsw.c lines 364-374):
upper-case everything from the first `-` on (upper-casing `-` itself is
the identity); return the input unchanged when it has no `-`. -/
def capitalizeLocale (l : List Char) : List Char :=
  match strchrSplit '-' l with
  | none => l
  | some (pre, post) => pre ++ (('-' :: post).map Char.toUpper)

/-- The `SPDVoice` record as filled in by `find_all_synthesis_voices`. -/
structure SPDVoiceM where
  name : List Char
  language : List Char
  variant : List Char
deriving DecidableEq, Repr

/-- Construction of one catalog entry (speechsw.c lines 393-400): split
the provider voice id at its last comma; the descriptor name is
`"<engineName> <voiceName>"` and the language is the capitalized text
after the comma.  A voice id with no comma produces no entry (the C code
dereferences the NULL `strrchr` result there and crashes before any entry
is placed). -/
def mkVoiceDescriptor (engine_name voice_id : List Char) : Option SPDVoiceM :=
  match strrchrSplit ',' voice_id with
  | none => none
  | some (voice_name, lang) =>
      some ⟨engine_name ++ ' ' :: voice_name, capitalizeLocale lang,
        ['n', 'u', 'l', 'l']⟩

/-- Shallow embedding of the catalog built by `find_all_synthesis_voices`
(speechsw.c lines 378-421): `engines` pairs each successfully started
engine name with the voice ids it lists; entries appear in enumeration
order. -/
def find_all_synthesis_voices (engines : List (List Char × List (List Char))) :
    List SPDVoiceM :=
  engines.flatMap (fun e => e.2.filterMap (mkVoiceDescriptor e.1))

end Speechsw

namespace Speechsw

/-- Claim C3: when `audio_callback` is invoked with sample count zero and
no cancellation condition (engine cancel flag clear, `sw_cancel` clear, no
pending stop request), it signals `module_speak_queue_before_play`
followed by exactly one `module_speak_queue_add_end`, forwards zero audio
chunks to the queue, and returns false (do not cancel). -/
theorem audio_callback_end_of_stream (i : CallbackInput)
    (h0 : i.numSamples = 0) (hc : i.cancel = false) (hs : i.swCancel = false)
    (hr : i.stopRequested = false) :
    (audio_callback i).events = [QueueEvent.beforePlay, QueueEvent.addEnd]
    ∧ (audio_callback i).events.count QueueEvent.addEnd = 1
    ∧ (∀ n, QueueEvent.addChunk n ∉ (audio_callback i).events)
    ∧ (audio_callback i).retCancel = false := by
  simp [audio_callback, hc, hs, hr, h0, List.count_cons]

/-- Witness for `audio_callback_end_of_stream` at the concrete input with
all flags clear and zero samples. -/
theorem audio_callback_end_of_stream_witness :
    (audio_callback ⟨false, false, false, 0, true⟩).events
      = [QueueEvent.beforePlay, QueueEvent.addEnd]
    ∧ (audio_callback ⟨false, false, false, 0, true⟩).events.count QueueEvent.addEnd = 1
    ∧ (∀ n, QueueEvent.addChunk n ∉ (audio_callback ⟨false, false, false, 0, true⟩).events)
    ∧ (audio_callback ⟨false, false, false, 0, true⟩).retCancel = false :=
  audio_callback_end_of_stream ⟨false, false, false, 0, true⟩ rfl rfl rfl rfl

/-- Claim C1, counterexample: at the concrete input where only the host
queue's stop request is pending (engine cancel clear, `sw_cancel` clear),
`audio_callback` returns true but does not forward a stop signal
(`module_speak_queue_stop`) to the host queue, contrary to the claim that
every such invocation forwards a stop signal. -/
theorem audio_callback_stop_request_no_queue_stop :
    ((false : Bool) || false || true) = true
    ∧ (audio_callback ⟨false, false, true, 5, true⟩).retCancel = true
    ∧ QueueEvent.queueStop ∉ (audio_callback ⟨false, false, true, 5, true⟩).events := by
  decide

/-- Claim C1, amended: whenever the engine-originated cancel flag,
`sw_cancel`, or a pending host stop request is observed, `audio_callback`
returns true (cancel) to the provider; when the engine cancel flag or
`sw_cancel` is set it forwards `module_speak_queue_stop` to the host
queue; when neither is set but the host queue reports a pending stop
request, it records the cancellation in `sw_cancel` and returns true
without forwarding a stop signal. -/
theorem audio_callback_cancel_paths (i : CallbackInput)
    (h : (i.cancel || i.swCancel || i.stopRequested) = true) :
    (audio_callback i).retCancel = true
    ∧ ((i.cancel || i.swCancel) = true →
        (audio_callback i).events = [QueueEvent.queueStop])
    ∧ ((i.cancel || i.swCancel) = false →
        (audio_callback i).events = [] ∧ (audio_callback i).swCancelAfter = true) := by
  rcases hc : i.cancel <;> rcases hs : i.swCancel <;> rcases hr : i.stopRequested <;>
    simp_all [audio_callback]

/-- Witness for `audio_callback_cancel_paths` at two concrete inputs: one
with the engine cancel flag set, one with only the stop request pending. -/
theorem audio_callback_cancel_paths_witness :
    ((audio_callback ⟨true, false, false, 3, true⟩).retCancel = true
      ∧ (((true : Bool) || false) = true →
          (audio_callback ⟨true, false, false, 3, true⟩).events = [QueueEvent.queueStop])
      ∧ (((true : Bool) || false) = false →
          (audio_callback ⟨true, false, false, 3, true⟩).events = []
          ∧ (audio_callback ⟨true, false, false, 3, true⟩).swCancelAfter = true))
    ∧ ((audio_callback ⟨false, false, true, 3, true⟩).retCancel = true
      ∧ (((false : Bool) || false) = true →
          (audio_callback ⟨false, false, true, 3, true⟩).events = [QueueEvent.queueStop])
      ∧ (((false : Bool) || false) = false →
          (audio_callback ⟨false, false, true, 3, true⟩).events = []
          ∧ (audio_callback ⟨false, false, true, 3, true⟩).swCancelAfter = true)) :=
  ⟨audio_callback_cancel_paths ⟨true, false, false, 3, true⟩ (by decide),
   audio_callback_cancel_paths ⟨false, false, true, 3, true⟩ (by decide)⟩

/-- Claim C5: when the built voice catalog is empty (`sw_num_voices = 0`),
`module_init` returns `FATAL_ERROR` and does not proceed with
initialization (`module_speak_queue_init` is never called), whatever that
call would have returned; in particular it never returns `OK`, so the
host never brings the module up and `speak` is unreachable. -/
theorem module_init_zero_voices_fatal (queueInitRet : Int) :
    module_init 0 queueInitRet = (FATAL_ERROR, false)
    ∧ (module_init 0 queueInitRet).1 ≠ OK := by
  constructor
  · rfl
  · simp [module_init, FATAL_ERROR, OK]

/-- Claim C10: evaluation of the `speak` copy-and-terminate step at the
failing input `bytes = 0`: the buffer is never allocated (`text` stays
NULL) yet the store `text[bytes] = '\0'` still executes, writing through
a null pointer.  For every nonzero `bytes` the store is in bounds of the
`bytes + 1` allocation. -/
theorem speak_null_write_at_zero_bytes :
    (speak_copy 0).1 = none ∧ (speak_copy 0).2 = true
    ∧ (speak_copy 7).1 = some 8 ∧ (speak_copy 7).2 = false := by
  decide

/-- Claim C2: evaluation of the `swSetVoice` guard at the failing input:
with the voice `"English (America),en-US"` already selected and the
resolved voice id equal to it, the code still invokes `swSetVoice`
because line 305 compares the resolved id against the engine name
`"espeak"` instead of the stored voice id, while the guard the spec
prescribes is false there. -/
theorem set_synthesis_voice_guard_bug :
    swSetVoice_invoked (some "English (America),en-US") "espeak"
      "English (America),en-US" = true
    ∧ swSetVoice_invoked_spec (some "English (America),en-US")
      "English (America),en-US" = false := by
  decide

/-- On nonnegative rates the computed speed is `1 + rate/20` (at rate 0
both branches of the source agree on `1.0`). -/
lemma speed_of_nonneg (r : ℤ) (h : 0 ≤ r) : speed r = 1 + (r : ℚ) / 20 := by
  rcases h.lt_or_eq with h1 | h1
  · simp [speed, h1]
  · rw [← h1]
    norm_num [speed]

/-- On negative rates the computed speed is `1 / (1 - rate/20)`. -/
lemma speed_of_neg (r : ℤ) (h : r < 0) : speed r = 1 / (1 - (r : ℚ) / 20) := by
  have h' : ¬ (0 : ℤ) < r := by omega
  simp [speed, h, h']

/-- The speed translation is strictly increasing (on all of `ℤ`). -/
lemma speed_lt (a b : ℤ) (hab : a < b) : speed a < speed b := by
  rcases le_or_lt 0 a with ha | ha
  · have hb : 0 ≤ b := le_of_lt (lt_of_le_of_lt ha hab)
    rw [speed_of_nonneg a ha, speed_of_nonneg b hb]
    have h1 : (a : ℚ) < b := by exact_mod_cast hab
    linarith
  · have hqa : (a : ℚ) < 0 := by exact_mod_cast ha
    have hda : (0 : ℚ) < 1 - (a : ℚ) / 20 := by linarith
    rw [speed_of_neg a ha]
    rcases le_or_lt 0 b with hb | hb
    · rw [speed_of_nonneg b hb]
      have hqb : (0 : ℚ) ≤ b := by exact_mod_cast hb
      have h1 : 1 / (1 - (a : ℚ) / 20) < 1 := by
        rw [div_lt_one hda]
        linarith
      linarith
    · rw [speed_of_neg b hb]
      have hqb : (b : ℚ) < 0 := by exact_mod_cast hb
      have hab' : (a : ℚ) < b := by exact_mod_cast hab
      have hdb : (0 : ℚ) < 1 - (b : ℚ) / 20 := by linarith
      rw [div_lt_div_iff₀ hda hdb]
      linarith

/-- Claim C6: for every rate in `[-100, 100]` the rate-to-speed
translation of `set_rate` computes `1 + rate/20` for nonnegative rates
and `1 / (1 - rate/20)` for negative rates; `speed 0 = 1`,
`speed 100 = 6`, `speed (-100) = 1/6`, and speed is strictly increasing
over the domain. -/
theorem set_rate_speed_spec :
    (∀ r : ℤ, 0 ≤ r → speed r = 1 + (r : ℚ) / 20)
    ∧ (∀ r : ℤ, r < 0 → speed r = 1 / (1 - (r : ℚ) / 20))
    ∧ speed 0 = 1 ∧ speed 100 = 6 ∧ speed (-100) = 1 / 6
    ∧ (∀ a b : ℤ, -100 ≤ a → a < b → b ≤ 100 → speed a < speed b) :=
  ⟨speed_of_nonneg, speed_of_neg, by norm_num [speed], by norm_num [speed],
   by norm_num [speed], fun a b _ hab _ => speed_lt a b hab⟩

/-- Claim C4: along the provider-library call trace emitted by
`start_engine` and by the engine-switching step of `set_synthesis_voice`,
the number of concurrently live engine handles never exceeds one at any
point (every trace position, via `take k`), the final count matches the
resulting session state, and whenever the session switches away from a
live engine with a different name, the very first emitted call is
`swStop` — the old handle is released strictly before any new `swStart`. -/
theorem engine_handles_at_most_one (starts : String → Bool) (st : Option String)
    (name : String) (k : Nat) :
    applyEvs (live st) (((start_engine starts st name).2).take k) ≤ 1
    ∧ applyEvs (live st) ((start_engine starts st name).2)
        = live (start_engine starts st name).1
    ∧ applyEvs (live st) (((switch_engine starts st name).2).take k) ≤ 1
    ∧ applyEvs (live st) ((switch_engine starts st name).2)
        = live (switch_engine starts st name).1
    ∧ (∀ cur, st = some cur → name ≠ cur →
        ((start_engine starts st name).2).head? = some EngineEvent.stopEv
        ∧ ((switch_engine starts st name).2).head? = some EngineEvent.stopEv) := by
  rcases st with _ | cur
  · cases hs : starts name <;> rcases k with _ | _ | k <;>
      simp [start_engine, switch_engine, swStart_model, stop_engine,
        applyEvs, applyEv, live, hs]
  · by_cases hn : name = cur
    · subst hn
      rcases k with _ | _ | k <;>
        simp [start_engine, switch_engine, swStart_model, stop_engine,
          applyEvs, applyEv, live]
    · cases hs : starts name <;> rcases k with _ | _ | k <;>
        simp [start_engine, switch_engine, swStart_model, stop_engine,
          applyEvs, applyEv, live, hn, hs]

/-- Witness for `engine_handles_at_most_one`: switching from live engine
"A" to engine "B" emits `swStop` first, in both `start_engine` and the
`set_synthesis_voice` switching step. -/
theorem engine_handles_at_most_one_witness :
    ((start_engine (fun s => s == "B") (some "A") "B").2).head?
      = some EngineEvent.stopEv
    ∧ ((switch_engine (fun s => s == "B") (some "A") "B").2).head?
      = some EngineEvent.stopEv :=
  (engine_handles_at_most_one (fun s => s == "B") (some "A") "B" 0).2.2.2.2
    "A" rfl (by decide)

/-- The loop of `set_default_engine` selects the first engine in list
order whose start succeeds. -/
lemma try_engines_fst (starts : String → Bool) (l : List String) :
    (try_engines starts l).1 = l.find? starts := by
  induction l with
  | nil => rfl
  | cons n rest ih =>
    by_cases h : starts n
    · simp [try_engines, h, List.find?_cons_of_pos]
    · simp [try_engines, h, List.find?_cons_of_neg, ih]

/-- The loop of `set_default_engine` attempts exactly the engines up to
and including the first one that starts (all of them when none start). -/
lemma try_engines_trace (starts : String → Bool) (l : List String) :
    (try_engines starts l).2
      = l.takeWhile (fun e => !starts e) ++ (l.find? starts).toList := by
  induction l with
  | nil => rfl
  | cons n rest ih =>
    by_cases h : starts n
    · simp [try_engines, h, List.takeWhile_cons, List.find?_cons_of_pos]
    · simp [try_engines, h, List.takeWhile_cons, List.find?_cons_of_neg, ih]

/-- Claim C7, counterexample: when no engines were discovered
(`sw_num_engines == 0`), `set_default_engine` returns immediately and
never attempts the preferred default provider "espeak" — even under a
start function for which "espeak" would have started — contrary to the
claim that the fallback first attempts to start "espeak". -/
theorem set_default_engine_empty_skips_espeak :
    set_default_engine (fun _ => true) [] = (none, [])
    ∧ (fun (_ : String) => true) "espeak" = true
    ∧ "espeak" ∉ (set_default_engine (fun _ => true) []).2 := by
  decide

/-- Claim C7, amended: when at least one provider was discovered, the
fallback attempts "espeak" first and then each discovered provider in
catalog order until one starts (the attempt list is "espeak" followed,
when "espeak" fails, by every failing provider up to and including the
first success), and the resulting engine is "espeak" if it starts and
otherwise the first provider in catalog order that starts; when the
provider catalog is empty the fallback returns immediately with no start
attempt; in either case, if no engine starts, the session stays Idle and
`module_speak` returns failure (`FALSE`) without launching the speak
task; any engine the fallback selects did start successfully. -/
theorem set_default_engine_fallback_order (starts : String → Bool)
    (engines : List String) (bytes : Nat) :
    (engines ≠ [] →
        (set_default_engine starts engines).2
          = "espeak" :: (if starts "espeak" = true then []
              else engines.takeWhile (fun e => !starts e)
                ++ (engines.find? starts).toList)
      ∧ (set_default_engine starts engines).1
          = (if starts "espeak" = true then some "espeak"
             else engines.find? starts))
    ∧ (engines = [] → set_default_engine starts engines = (none, []))
    ∧ ((set_default_engine starts engines).1 = none →
        module_speak_fallback starts engines bytes = (none, 0, false))
    ∧ (∀ e, (set_default_engine starts engines).1 = some e → starts e = true) := by
  refine ⟨?_, ?_, ?_, ?_⟩
  · intro hne
    have hnil : engines.isEmpty = false := by
      simpa [List.isEmpty_iff] using hne
    by_cases h : starts "espeak"
    · simp [set_default_engine, hnil, h]
    · simp [set_default_engine, hnil, h, try_engines_fst, try_engines_trace]
  · intro he
    subst he
    rfl
  · intro hnone
    rcases hsd : set_default_engine starts engines with ⟨st, tr⟩
    rw [hsd] at hnone
    simp only at hnone
    subst hnone
    simp [module_speak_fallback, hsd]
  · intro e he
    by_cases hnil : engines.isEmpty
    · simp [set_default_engine, hnil] at he
    · by_cases h : starts "espeak"
      · simp [set_default_engine, hnil, h] at he
        rw [← he]
        exact h
      · simp [set_default_engine, hnil, h, try_engines_fst] at he
        exact List.find?_some he

/-- Witness for `set_default_engine_fallback_order`: with discovered
engines ["a", "b"] of which only "b" starts, the fallback selects "b";
with one discovered engine that fails to start, `module_speak` fails
without launching the task. -/
theorem set_default_engine_fallback_order_witness :
    (set_default_engine (fun s => s == "b") ["a", "b"]).1
      = (if (fun s => s == "b") "espeak" = true then some "espeak"
         else ["a", "b"].find? (fun s => s == "b"))
    ∧ module_speak_fallback (fun _ => false) ["a"] 7 = (none, 0, false)
    ∧ (fun s => s == "b") "b" = true :=
  ⟨((set_default_engine_fallback_order (fun s => s == "b") ["a", "b"] 0).1
      (by decide)).2,
   (set_default_engine_fallback_order (fun _ => false) ["a"] 7).2.2.1 (by decide),
   (set_default_engine_fallback_order (fun s => s == "b") ["a", "b"] 0).2.2.2
     "b" (by decide)⟩

/-- `strchr` succeeds on every string that contains the sought
character. -/
lemma strchrSplit_isSome_of_mem (c : Char) (l : List Char) (h : c ∈ l) :
    (strchrSplit c l).isSome := by
  induction l with
  | nil => cases h
  | cons x xs ih =>
    by_cases hx : x = c
    · simp [strchrSplit, hx]
    · have hm : c ∈ xs := by
        rcases List.mem_cons.mp h with h1 | h1
        · exact absurd h1.symm hx
        · exact h1
      have hs := ih hm
      rcases ho : strchrSplit c xs with _ | ⟨pre, post⟩
      · rw [ho] at hs
        simp at hs
      · simp [strchrSplit, hx, ho]

/-- Claim C9: every descriptor placed in the catalog by
`find_all_synthesis_voices` stems from some started engine and one of its
voice ids; its name is `"<engineName> <voiceName>"` (so it contains at
least one space) with the voice name taken from before the last comma of
the voice id, and its language is the capitalized text after that last
comma; consequently the first-space search `set_synthesis_voice` performs
on the name succeeds (never a NULL `strchr` result). -/
theorem catalog_names_well_formed (engines : List (List Char × List (List Char)))
    (v : SPDVoiceM) (hv : v ∈ find_all_synthesis_voices engines) :
    (∃ ename vs vid voice_name lang,
        (ename, vs) ∈ engines ∧ vid ∈ vs
        ∧ strrchrSplit ',' vid = some (voice_name, lang)
        ∧ v.name = ename ++ ' ' :: voice_name
        ∧ v.language = capitalizeLocale lang)
    ∧ ' ' ∈ v.name
    ∧ (strchrSplit ' ' v.name).isSome := by
  rw [find_all_synthesis_voices] at hv
  simp only [List.mem_flatMap, List.mem_filterMap] at hv
  obtain ⟨e, he, vid, hvid, hmk⟩ := hv
  unfold mkVoiceDescriptor at hmk
  rcases hsp : strrchrSplit ',' vid with _ | ⟨voice_name, lang⟩
  · rw [hsp] at hmk
    simp at hmk
  · rw [hsp] at hmk
    simp only [Option.some.injEq] at hmk
    subst hmk
    refine ⟨⟨e.1, e.2, vid, voice_name, lang, ?_, hvid, hsp, rfl, rfl⟩, ?_, ?_⟩
    · simpa using he
    · simp
    · apply strchrSplit_isSome_of_mem
      simp

/-- Witness for `catalog_names_well_formed`: one engine `"e"` reporting
the single voice id `"v,x"` yields the descriptor named `"e v"` with
language `"x"`, on which the space split succeeds. -/
theorem catalog_names_well_formed_witness :
    (∃ ename vs vid voice_name lang,
        (ename, vs) ∈ [(['e'], [['v', ',', 'x']])] ∧ vid ∈ vs
        ∧ strrchrSplit ',' vid = some (voice_name, lang)
        ∧ (SPDVoiceM.mk ['e', ' ', 'v'] ['x'] ['n', 'u', 'l', 'l']).name
            = ename ++ ' ' :: voice_name
        ∧ (SPDVoiceM.mk ['e', ' ', 'v'] ['x'] ['n', 'u', 'l', 'l']).language
            = capitalizeLocale lang)
    ∧ ' ' ∈ (SPDVoiceM.mk ['e', ' ', 'v'] ['x'] ['n', 'u', 'l', 'l']).name
    ∧ (strchrSplit ' '
        (SPDVoiceM.mk ['e', ' ', 'v'] ['x'] ['n', 'u', 'l', 'l']).name).isSome :=
  catalog_names_well_formed [(['e'], [['v', ',', 'x']])]
    (SPDVoiceM.mk ['e', ' ', 'v'] ['x'] ['n', 'u', 'l', 'l']) (by decide)

/-- Witness for `set_rate_speed_spec` at rates 40, -40 and the pair
(-1, 1). -/
theorem set_rate_speed_spec_witness :
    speed 40 = 1 + ((40 : ℤ) : ℚ) / 20
    ∧ speed (-40) = 1 / (1 - (((-40 : ℤ)) : ℚ) / 20)
    ∧ speed (-1) < speed 1 :=
  ⟨set_rate_speed_spec.1 40 (by norm_num),
   set_rate_speed_spec.2.1 (-40) (by norm_num),
   set_rate_speed_spec.2.2.2.2.2 (-1) 1 (by norm_num) (by norm_num) (by norm_num)⟩

end Speechsw
